import Mathlib

/-!
Umbra Browser: verification of the threat/ad classification engine and the
session-privacy persistence gates.

This file gives a shallow embedding, in Lean, of the classification and
privacy-persistence logic of the Umbra browser repository:

* the `SecurityManager` URL pipeline (`checkUrl`, `checkDomainSpoofing`,
  `checkSuspiciousTLD`, `checkUrlStructure`) of the security manager that
  registers on the `beforeNavigate` event;
* the `AdBlocker` (`shouldBlockUrl`, `addCustomFilter`, `hideElement`,
  `disable`) of `src/js/features/adblock.js`;
* the bounded persistent event logs (`logSecurityEvent` of
  `src/scripts/security.js`, `logBlockedRequest` of `src/scripts/privacy.js`)
  and the settings-save paths of both `UmbraBrowser` variants;
* the ad mitigation/restore pair (`blockAd`, `toggleAdBlocker`) of
  `src/scripts/security.js`;
* the event bus (`emit`) and `navigate` of `src/js/core/umbra.js`.

JavaScript regular-expression literals used by the source are embedded as
executable character-list matchers implementing exactly the language of each
literal (the source lowercases its inputs before testing, so the `/i` flags
reduce to matching over lowercase strings).  Browser builtins
(`new URL(...)`, `RegExp`, `decodeURIComponent`, `localStorage`) are modeled
by executable Lean functions documented at their definitions; `localStorage`
is modeled as a typed association list keyed by the same key strings the
source uses, with each JSON value represented by its parsed form.
-/

namespace Umbra

/-! ## Character/substring helpers for the embedded regex literals -/

def isAlnumAscii (c : Char) : Bool := c.isAlpha || c.isDigit

/-- ASCII lowercasing (`String.prototype.toLowerCase`; every string the
source lowercases here is ASCII). -/
def toLowerAscii (c : Char) : Char :=
  if 'A' ≤ c && c ≤ 'Z' then Char.ofNat (c.toNat + 32) else c

def toLowerStr (s : String) : String := ⟨s.data.map toLowerAscii⟩

/-- Does `pat` occur as a contiguous subsequence (substring) of `l`? -/
def containsSeq (pat : List Char) : List Char → Bool
  | [] => pat.isPrefixOf ([] : List Char)
  | c :: rest => pat.isPrefixOf (c :: rest) || containsSeq pat rest

/-- The language of the regex `a.*b`: an occurrence of `a` followed,
anywhere later, by an occurrence of `b`. -/
def seqTwo (a b : List Char) : List Char → Bool
  | [] => a.isPrefixOf ([] : List Char) && containsSeq b []
  | c :: rest =>
      (a.isPrefixOf (c :: rest) && containsSeq b ((c :: rest).drop a.length))
        || seqTwo a b rest

/-- The language of the regex `a.*b.*c`. -/
def seqThree (a b c : List Char) : List Char → Bool
  | [] => a.isPrefixOf ([] : List Char) && seqTwo b c []
  | x :: rest =>
      (a.isPrefixOf (x :: rest) && seqTwo b c ((x :: rest).drop a.length))
        || seqThree a b c rest

/-- Match at the head of `l` for `/bit\.ly\/[a-zA-Z0-9]{6,}/`:
the 7 characters `bit.ly/` followed by at least six alphanumerics. -/
def bitlyAt (l : List Char) : Bool :=
  "bit.ly/".toList.isPrefixOf l && 6 ≤ ((l.drop 7).takeWhile isAlnumAscii).length

def bitlyMatch : List Char → Bool
  | [] => false
  | c :: rest => bitlyAt (c :: rest) || bitlyMatch rest

/-- Consume exactly `n` ASCII digits, returning the remainder. -/
def dropDigits : List Char → Nat → Option (List Char)
  | l, 0 => some l
  | c :: rest, n + 1 => if c.isDigit then dropDigits rest n else none
  | [], _ + 1 => none

/-- Try a run of 1, 2 or 3 digits (the choices of `[0-9]{1,3}` relevant to
an unanchored `test`), continuing with `cont`. -/
def seg13 (l : List Char) (cont : List Char → Bool) : Bool :=
  (match dropDigits l 1 with | some r => cont r | none => false)
  || (match dropDigits l 2 with | some r => cont r | none => false)
  || (match dropDigits l 3 with | some r => cont r | none => false)

def dotThen (l : List Char) (cont : List Char → Bool) : Bool :=
  match l with
  | '.' :: r => cont r
  | _ => false

/-- Match at the head of `l` for `/[0-9]{1,3}\.[0-9]{1,3}\.[0-9]{1,3}\.[0-9]{1,3}/`. -/
def ipAt (l : List Char) : Bool :=
  seg13 l (fun r1 => dotThen r1 (fun r2 =>
    seg13 r2 (fun r3 => dotThen r3 (fun r4 =>
      seg13 r4 (fun r5 => dotThen r5 (fun r6 =>
        seg13 r6 (fun _ => true)))))))

def ipMatch : List Char → Bool
  | [] => false
  | c :: rest => ipAt (c :: rest) || ipMatch rest

def qpWords : List (List Char) :=
  ["download=".toList, "exec=".toList, "cmd=".toList, "shell=".toList]

/-- Match at the head of `l` for `/[?&](download|exec|cmd|shell)=/`. -/
def qpAt : List Char → Bool
  | [] => false
  | c :: rest => (c == '?' || c == '&') && qpWords.any (fun w => w.isPrefixOf rest)

def qpMatch : List Char → Bool
  | [] => false
  | c :: rest => qpAt (c :: rest) || qpMatch rest

def endsWithStr (s suffixStr : String) : Bool := suffixStr.data.isSuffixOf s.data

/-- Global single-character replacement, `hostname.replace(/c/g, r)`. -/
def replaceAllCharList (c r : Char) : List Char → List Char
  | [] => []
  | x :: xs => (if x == c then r else x) :: replaceAllCharList c r xs

def replaceAllChar (c r : Char) (s : String) : String := ⟨replaceAllCharList c r s.data⟩

/-- JavaScript `s.replace(pat, rep)` with a *string* first argument replaces
only the first occurrence. -/
def replaceFirstList (pat rep : List Char) : List Char → List Char
  | [] => []
  | c :: rest =>
      if pat.isPrefixOf (c :: rest) then rep ++ (c :: rest).drop pat.length
      else c :: replaceFirstList pat rep rest

def replaceFirst (s pat rep : String) : String := ⟨replaceFirstList pat.data rep.data s.data⟩

/-- Split at the first occurrence of `pat`, if any. -/
def splitOnceList (pat : List Char) : List Char → Option (List Char × List Char)
  | [] => if pat.isPrefixOf ([] : List Char) then some ([], []) else none
  | c :: rest =>
      if pat.isPrefixOf (c :: rest) then some ([], (c :: rest).drop pat.length)
      else match splitOnceList pat rest with
        | some (a, b) => some (c :: a, b)
        | none => none

/-! ## URL parsing model -/

structure UrlObj where
  hostname : String
  href : String
deriving DecidableEq, Repr

/-- Model of the browser `new URL(url)` constructor (an external browser
builtin, not repository code): parsing succeeds when the string has the shape
`scheme "://" authority [path]` with a nonempty alphabetic scheme and a
nonempty host.  `hostname` is the authority up to a port separator,
lowercased (the real constructor lowercases hostnames); `href` is the input
with `"/"` appended when the path is empty (the real constructor serializes a
trailing slash).  Both fields the repository reads from a parsed URL
(`hostname` and `href`) are represented. -/
def parseUrl (url : String) : Option UrlObj :=
  match splitOnceList "://".toList url.data with
  | none => none
  | some (schemeChars, rest) =>
    if !schemeChars.isEmpty && schemeChars.all Char.isAlpha then
      let authority := rest.takeWhile (fun c => !(c == '/') && !(c == '?') && !(c == '#'))
      let path := rest.drop authority.length
      let hostname := authority.takeWhile (fun c => !(c == ':'))
      if hostname.isEmpty then none
      else some { hostname := toLowerStr ⟨hostname⟩,
                  href := if path.isEmpty then url ++ "/" else url }
    else none

def isHexDigitAscii (c : Char) : Bool :=
  c.isDigit || ('a' ≤ c && c ≤ 'f') || ('A' ≤ c && c ≤ 'F')

def hexVal (c : Char) : Nat :=
  if c.isDigit then c.toNat - '0'.toNat
  else if 'a' ≤ c && c ≤ 'f' then c.toNat - 'a'.toNat + 10
  else if 'A' ≤ c && c ≤ 'F' then c.toNat - 'A'.toNat + 10
  else 0

/-- Match at the head of `l` for `/%[0-9a-f]{2}/i`. -/
def hexEscapeAt : List Char → Bool
  | '%' :: a :: b :: _ => isHexDigitAscii a && isHexDigitAscii b
  | _ => false

def hexEscapeMatch : List Char → Bool
  | [] => false
  | c :: rest => hexEscapeAt (c :: rest) || hexEscapeMatch rest

/-- Model of `decodeURIComponent` (browser builtin), simplified to byte-wise
decoding of valid `%XX` escapes; multi-byte UTF-8 sequences and the throwing
behavior of the real builtin are not modeled (no claim exercises them). -/
def decodePercentList : List Char → List Char
  | '%' :: a :: b :: rest =>
      if isHexDigitAscii a && isHexDigitAscii b then
        Char.ofNat (16 * hexVal a + hexVal b) :: decodePercentList rest
      else '%' :: decodePercentList (a :: b :: rest)
  | c :: rest => c :: decodePercentList rest
  | [] => []

/-! ## SecurityManager URL pipeline (the `beforeNavigate` security manager) -/

/-- A classification outcome: the `type`/`description` pair of the threat
objects the source constructs and stores.  `checkUrl` returning `none`
corresponds to the source returning `null` (the URL is clean). -/
structure Threat where
  ttype : String
  description : String
deriving DecidableEq, Repr

structure SecRule where
  test : List Char → Bool
  threat : Threat

structure SecurityState where
  isEnabled : Bool
  threatDatabase : List (String × Threat)
  securityRules : List SecRule

/-- Lookup `this.threatDatabase.get(hostname)` (a `Map` keyed by domain). -/
def dbLookup (db : List (String × Threat)) (host : String) : Option Threat :=
  (db.find? (fun p => p.1 == host)).map (fun p => p.2)

/-- The `for (const rule of this.securityRules)` loop: first matching rule. -/
def rulesFind (rules : List SecRule) (fullUrl : List Char) : Option Threat :=
  rules.findSome? (fun r => if r.test fullUrl then some r.threat else none)

def legitimateDomains : List String :=
  ["google.com", "facebook.com", "amazon.com", "paypal.com",
   "microsoft.com", "apple.com", "github.com", "youtube.com"]

/-- The seven `spoofingPatterns` built inside `checkDomainSpoofing`: note the
first four are substitutions applied to the *candidate hostname itself*, the
last three are variants of the legitimate domain. -/
def spoofingPatterns (hostname legit : String) : List String :=
  [replaceAllChar 'o' '0' hostname,
   replaceAllChar 'i' '1' hostname,
   replaceAllChar 'l' '1' hostname,
   replaceAllChar 'e' '3' hostname,
   replaceFirst legit "." "-" ++ ".com",
   replaceFirst legit ".com" ".net",
   replaceFirst legit ".com" ".org"]

def checkDomainSpoofing (hostname : String) : Option Threat :=
  legitimateDomains.findSome? (fun legit =>
    if (spoofingPatterns hostname legit).contains hostname && hostname != legit then
      some ⟨"spoofing", legit ++ "のドメインスプーフィング"⟩
    else none)

def suspiciousTlds : List String :=
  [".tk", ".ml", ".ga", ".cf", ".click", ".download", ".work"]

def checkSuspiciousTLD (hostname : String) : Option Threat :=
  suspiciousTlds.findSome? (fun tld =>
    if endsWithStr hostname tld then
      some ⟨"suspicious", "不審なトップレベルドメイン"⟩
    else none)

def checkUrlStructure (u : UrlObj) : Option Threat :=
  if u.href.length > 2000 then some ⟨"suspicious", "異常に長いURL"⟩
  else if (u.hostname.splitOn ".").length > 5 then some ⟨"suspicious", "過度のサブドメイン"⟩
  else if u.href.contains '%' && hexEscapeMatch u.href.data then
    let decoded := decodePercentList u.href.data
    if containsSeq "<script>".toList decoded || containsSeq "javascript:".toList decoded then
      some ⟨"xss", "XSS攻撃の可能性"⟩
    else none
  else none

/-- Method `SecurityManager.checkUrl`: stage order exactly as in the source — parse
(failure is itself an `invalid` verdict), threat-database exact-hostname
lookup, ordered rule scan over the lowercased full URL, domain-spoofing
heuristic, suspicious TLD, URL structure; `none` means clean. -/
def checkUrl (st : SecurityState) (url : String) : Option Threat :=
  match parseUrl url with
  | none => some ⟨"invalid", "無効なURL形式"⟩
  | some urlObj =>
    let hostname := toLowerStr urlObj.hostname
    let fullUrl := (toLowerStr url).data
    match dbLookup st.threatDatabase hostname with
    | some t => some t
    | none =>
      match rulesFind st.securityRules fullUrl with
      | some t => some t
      | none =>
        match checkDomainSpoofing hostname with
        | some t => some t
        | none =>
          match checkSuspiciousTLD hostname with
          | some t => some t
          | none => checkUrlStructure urlObj

/-- The five domain-keyed threat entries of `loadSecurityDatabase`, in
insertion order. -/
def initialThreatDatabase : List (String × Threat) :=
  [("secure-paypal-verification.com", ⟨"phishing", "PayPalフィッシングサイト"⟩),
   ("amazon-security-alert.net", ⟨"phishing", "Amazonフィッシングサイト"⟩),
   ("gmail-security-check.org", ⟨"phishing", "Gmailフィッシングサイト"⟩),
   ("free-software-download.exe", ⟨"malware", "マルウェア配布サイト"⟩),
   ("virus-scanner-pro.com", ⟨"malware", "偽ウイルス対策ソフト"⟩)]

def bitlyRule : SecRule := ⟨bitlyMatch, ⟨"suspicious", "短縮URLによる不審なリンク"⟩⟩

def ipRule : SecRule := ⟨ipMatch, ⟨"suspicious", "IPアドレス直接アクセス"⟩⟩

def bitcoinGiveawayRule : SecRule :=
  ⟨seqTwo "bitcoin".toList "giveaway".toList, ⟨"scam", "仮想通貨詐欺サイト"⟩⟩

def elonMuskCryptoRule : SecRule :=
  ⟨seqThree "elon".toList "musk".toList "crypto".toList, ⟨"scam", "著名人なりすまし詐欺"⟩⟩

def fileExtSuffixes : List String :=
  [".exe", ".scr", ".pif", ".bat", ".cmd", ".com", ".vbs", ".jar"]

/-- Rule `/\.(exe|scr|pif|bat|cmd|com|vbs|jar)$/i` on the lowercased full URL. -/
def fileExtRule : SecRule :=
  ⟨fun l => fileExtSuffixes.any (fun suf => suf.data.isSuffixOf l),
   ⟨"malware", "実行可能ファイルのダウンロード"⟩⟩

def queryParamRule : SecRule := ⟨qpMatch, ⟨"malware", "危険なパラメータを含むURL"⟩⟩

def redirectRule : SecRule :=
  ⟨seqTwo "redirect".toList "redirect".toList, ⟨"suspicious", "複数回リダイレクトの可能性"⟩⟩

/-- The `securityRules` list after `init()`: the four pattern entries pushed by
`loadSecurityDatabase` followed by the three pushed by `setupSecurityRules`. -/
def initialSecurityRules : List SecRule :=
  [bitlyRule, ipRule, bitcoinGiveawayRule, elonMuskCryptoRule,
   fileExtRule, queryParamRule, redirectRule]

def initialSecurityState : SecurityState :=
  { isEnabled := true
    threatDatabase := initialThreatDatabase
    securityRules := initialSecurityRules }

/-! ## localStorage model and the two bounded persistent logs -/

structure SecEvent where
  etype : String
  details : String
  timestamp : Nat
  url : String
deriving DecidableEq, Repr

structure BlockedReq where
  rtype : String
  url : String
  timestamp : Nat
deriving DecidableEq, Repr

/-- The settings record of `src/js/core/umbra.js`. -/
structure CoreSettings where
  theme : String
  adBlockEnabled : Bool
  securityEnabled : Bool
  privacyMode : Bool
  defaultSearchEngine : String
deriving DecidableEq, Repr

/-- The settings record of the scripts-variant `UmbraBrowser`. -/
structure ScriptsSettings where
  theme : String
  adBlockerEnabled : Bool
  trackingProtection : Bool
deriving DecidableEq, Repr

inductive StoreVal where
  | secLog (events : List SecEvent)
  | blockedReqs (reqs : List BlockedReq)
  | coreSettings (s : CoreSettings)
  | scriptsSettings (s : ScriptsSettings)
  | customFilters (fs : List (String × String))
  | adWhitelist (ws : List String)
deriving DecidableEq, Repr

/-- Model of `localStorage` (browser builtin): an association list from key
strings to the parsed form of the JSON value stored under that key.  JSON
serialization is injective on the records the source stores, so equality of
stores coincides with equality of the serialized contents. -/
abbrev LocalStore := List (String × StoreVal)

def emptyStore : LocalStore := []

/-- Write operation `localStorage.setItem`. -/
def storeSet (st : LocalStore) (key : String) (v : StoreVal) : LocalStore :=
  match st with
  | [] => [(key, v)]
  | (k, w) :: rest => if k == key then (key, v) :: rest else (k, w) :: storeSet rest key v

/-- Read operation `localStorage.getItem` (`none` for a missing key). -/
def storeGet (st : LocalStore) (key : String) : Option StoreVal :=
  (st.find? (fun p => p.1 == key)).map (fun p => p.2)

/-- The `splice(0, length - cap)` trim used by both loggers after the push:
keep only the last `cap` entries. -/
def trimTo (cap : Nat) (l : List α) : List α :=
  if cap < l.length then l.drop (l.length - cap) else l

/-- The parsed security log, `JSON.parse(getItem('umbraSecurityLog') || '[]')`. -/
def getSecLog (store : LocalStore) : List SecEvent :=
  match storeGet store "umbraSecurityLog" with
  | some (.secLog es) => es
  | _ => []

/-- Method `SecurityManager.logSecurityEvent` of `src/scripts/security.js`: read the
persisted log, push the event, trim to the last 1000 entries, and write the
result back only when `window.umbraBrowser` exists and is not in private
mode.  The UI-counter update (`updateSecurityStats`) touches no storage. -/
def logSecurityEvent (store : LocalStore) (e : SecEvent)
    (hasUmbraBrowser isPrivateMode : Bool) : LocalStore :=
  let log := trimTo 1000 (getSecLog store ++ [e])
  if hasUmbraBrowser && !isPrivateMode then
    storeSet store "umbraSecurityLog" (.secLog log)
  else store

/-- The parsed blocked-requests log, `JSON.parse(getItem('umbraBlockedRequests') || '[]')`. -/
def getBlockedReqs (store : LocalStore) : List BlockedReq :=
  match storeGet store "umbraBlockedRequests" with
  | some (.blockedReqs rs) => rs
  | _ => []

/-- Method `PrivacyManager.logBlockedRequest` of `src/scripts/privacy.js`: the same
read/push/trim/conditional-write shape with cap 100, gated by
`!this.privateMode`. -/
def logBlockedRequest (store : LocalStore) (r : BlockedReq)
    (privateMode : Bool) : LocalStore :=
  let reqs := trimTo 100 (getBlockedReqs store ++ [r])
  if !privateMode then
    storeSet store "umbraBlockedRequests" (.blockedReqs reqs)
  else store

/-- Method `UmbraBrowser.saveSettings` of the scripts variant
(`src/scripts` browser core): gated by `!this.isPrivateMode`. -/
def scriptsSaveSettings (store : LocalStore) (s : ScriptsSettings)
    (isPrivateMode : Bool) : LocalStore :=
  if !isPrivateMode then storeSet store "umbraSettings" (.scriptsSettings s) else store

/-- Method `UmbraBrowser.saveSettings` of `src/js/core/umbra.js`: an unconditional
write — this variant has no private-mode gate. -/
def coreSaveSettings (store : LocalStore) (s : CoreSettings) : LocalStore :=
  storeSet store "umbra-settings" (.coreSettings s)

structure CoreBrowserState where
  isPrivacyMode : Bool
  settings : CoreSettings
deriving DecidableEq, Repr

/-- Method `UmbraBrowser.handlePrivacyModeToggle` of `src/js/core/umbra.js`: set the
flag and the setting, then call the unconditional `saveSettings`
(the notification/indicator side effects touch no storage). -/
def handlePrivacyModeToggle (st : CoreBrowserState) (store : LocalStore)
    (enabled : Bool) : CoreBrowserState × LocalStore :=
  let s2 := { st.settings with privacyMode := enabled }
  ({ isPrivacyMode := enabled, settings := s2 }, coreSaveSettings store s2)

/-- The `settings` defaults of `src/js/core/umbra.js`. -/
def initialCoreSettings : CoreSettings :=
  { theme := "light", adBlockEnabled := true, securityEnabled := true,
    privacyMode := true, defaultSearchEngine := "google" }

/-! ## AdBlocker (`src/js/features/adblock.js`) -/

/-- An ad-blocker filter: the compiled pattern is its `test` function over
the (lowercased) string it is applied to.  `css`-type entries are never
tested against URLs (`shouldBlockUrl` filters on `type` first), so they
carry a vacuous test. -/
structure AdFilter where
  test : String → Bool
  ftype : String
  description : String

def containsStr (s pat : String) : Bool := containsSeq pat.data s.data

/-- Head match for `ads\d+\.`: `ads`, one or more digits, then a dot. -/
def adsDigitsDotAt (l : List Char) : Bool :=
  "ads".toList.isPrefixOf l &&
    (let tail := l.drop 3
     let ds := tail.takeWhile Char.isDigit
     !ds.isEmpty && (match tail.drop ds.length with | '.' :: _ => true | _ => false))

def adsDigitsDotMatch : List Char → Bool
  | [] => false
  | c :: rest => adsDigitsDotAt (c :: rest) || adsDigitsDotMatch rest

/-- The `default` filter list registered by `loadFilterLists`, in order.
The regex literals are embedded as their languages over lowercase input. -/
def defaultFilters : List AdFilter :=
  [⟨fun s => containsStr s ".ads.", "domain", "広告ドメイン"⟩,
   ⟨fun s => adsDigitsDotMatch s.data, "domain", "広告サブドメイン"⟩,
   ⟨fun s => containsStr s "googleads", "domain", "Google広告"⟩,
   ⟨fun s => containsStr s "googlesyndication", "domain", "Google Adsense"⟩,
   ⟨fun s => containsStr s "doubleclick", "domain", "DoubleClick広告"⟩,
   ⟨fun s => containsStr s "facebook.com/tr", "url", "Facebook広告トラッキング"⟩,
   ⟨fun s => containsStr s "twitter.com/i/adsct", "url", "Twitter広告"⟩,
   ⟨fun _ => false, "css", "広告クラス"⟩,
   ⟨fun _ => false, "css", "広告クラス複数"⟩,
   ⟨fun _ => false, "css", "広告要素"⟩,
   ⟨fun _ => false, "css", "バナー広告"⟩,
   ⟨fun _ => false, "css", "スポンサー広告"⟩,
   ⟨fun _ => false, "css", "プロモーション広告"⟩,
   ⟨fun _ => false, "css", "広告ID要素"⟩,
   ⟨fun _ => false, "css", "広告クラス要素"⟩,
   ⟨fun s => containsStr s "amazon-adsystem", "domain", "Amazon広告"⟩,
   ⟨fun s => containsStr s "adsystem.amazon", "domain", "Amazon広告システム"⟩,
   ⟨fun s => containsStr s "outbrain.com", "domain", "Outbrain広告"⟩,
   ⟨fun s => containsStr s "taboola.com", "domain", "Taboola広告"⟩,
   ⟨fun s => containsStr s "criteo.com", "domain", "Criteo広告"⟩,
   ⟨fun s => seqTwo "googlevideo.com".toList "&ad".toList s.data, "url", "YouTube広告"⟩,
   ⟨fun s => containsStr s "youtube.com/api/stats/ads", "url", "YouTube広告統計"⟩,
   ⟨fun s => seqTwo "pop".toList "ad".toList s.data, "url", "ポップアップ広告"⟩,
   ⟨fun s => containsStr s "popup", "url", "ポップアップ"⟩]

structure AdbState where
  isEnabled : Bool
  whitelist : List String
  filterLists : List (List AdFilter)
  customFilters : List AdFilter

/-- Method `AdBlocker.shouldBlockUrl`: whitelist check on the lowercased hostname
first (immediate `false`); then every `domain`/`url` filter of every list
tested against the lowercased full URL and the hostname; then the custom
filters against the full URL; the catch branch (parse failure) returns
`false`. -/
def shouldBlockUrl (st : AdbState) (url : String) : Bool :=
  match parseUrl url with
  | none => false
  | some o =>
    let hostname := toLowerStr o.hostname
    let fullUrl := toLowerStr url
    if st.whitelist.contains hostname then false
    else if st.filterLists.any (fun filters => filters.any (fun f =>
        (f.ftype == "domain" || f.ftype == "url")
          && (f.test fullUrl || f.test hostname))) then true
    else if st.customFilters.any (fun f =>
        (f.ftype == "domain" || f.ftype == "url") && f.test fullUrl) then true
    else false

/-- Parenthesis/bracket balance check used by the `RegExp` model below. -/
def bracketBalanceOk : List Char → Nat → Nat → Bool
  | [], 0, 0 => true
  | [], _, _ => false
  | '(' :: r, p, b => bracketBalanceOk r (p + 1) b
  | ')' :: r, p + 1, b => bracketBalanceOk r p b
  | ')' :: _, 0, _ => false
  | '[' :: r, p, b => bracketBalanceOk r p (b + 1)
  | ']' :: r, p, b + 1 => bracketBalanceOk r p b
  | ']' :: _, _, 0 => false
  | _ :: r, p, b => bracketBalanceOk r p b

/-- Model of the JavaScript `RegExp` constructor (browser builtin):
compilation fails — the constructor throws `SyntaxError` — on patterns whose
parentheses or brackets are unbalanced, a simplification of the real regex
grammar that captures that some pattern strings (such as `"("`) do not
compile.  The compiled matcher is modeled as case-insensitive substring
search (the source always passes the `i` flag), which is exact for the
literal patterns a user would register. -/
def regExpCompile (pattern : String) : Option (String → Bool) :=
  if bracketBalanceOk pattern.data 0 0 then
    some (fun s => containsSeq (toLowerStr pattern).data (toLowerStr s).data)
  else none

inductive AdbError where
  | invalidPattern
deriving DecidableEq, Repr

/-- Method `AdBlocker.addCustomFilter`: `new RegExp(pattern, 'i')` runs first — an
invalid pattern throws there, before any state mutation, and the exception
propagates (the outcome the spec names `InvalidPatternError`); on success
the filter is appended and `saveCustomFilters` persists the list
(`JSON.stringify` drops the compiled `RegExp`, so the persisted record keeps
only type and description). -/
def addCustomFilter (st : AdbState) (store : LocalStore)
    (pattern ftype description : String) : Except AdbError (AdbState × LocalStore) :=
  match regExpCompile pattern with
  | none => .error .invalidPattern
  | some test =>
    let st2 := { st with customFilters := st.customFilters ++ [⟨test, ftype, description⟩] }
    .ok (st2, storeSet store "umbra-custom-filters"
          (.customFilters (st2.customFilters.map (fun f => (f.ftype, f.description)))))

/-- What a caller observes when the `addCustomFilter` exception is caught:
on failure the ad-blocker state and the store are exactly as before. -/
def tryAddCustomFilter (st : AdbState) (store : LocalStore)
    (pattern ftype description : String) : AdbState × LocalStore :=
  match addCustomFilter st store pattern ftype description with
  | .error _ => (st, store)
  | .ok r => r

/-! ## DOM elements and ad mitigation -/

/-- A DOM element as the mitigation code observes and edits it: the five
inline style properties touched by `hideElement`, the attribute map, and
whether the element is attached to the document. -/
structure DomElement where
  styleDisplay : String
  styleVisibility : String
  styleOpacity : String
  styleMaxHeight : String
  styleOverflow : String
  attrs : List (String × String)
  attached : Bool
deriving DecidableEq, Repr

/-- DOM `element.setAttribute`. -/
def setAttr (attrs : List (String × String)) (name value : String) :
    List (String × String) :=
  match attrs with
  | [] => [(name, value)]
  | (k, v) :: rest =>
      if k == name then (name, value) :: rest else (k, v) :: setAttr rest name value

/-- DOM `element.removeAttribute`. -/
def removeAttr (attrs : List (String × String)) (name : String) :
    List (String × String) :=
  match attrs with
  | [] => []
  | (k, v) :: rest => if k == name then rest else (k, v) :: removeAttr rest name

/-- DOM `element.getAttribute` (`none` when absent). -/
def getAttr (attrs : List (String × String)) (name : String) : Option String :=
  (attrs.find? (fun p => p.1 == name)).map (fun p => p.2)

/-- Method `SecurityManager.blockAd` of `src/scripts/security.js`, element part:
`display:none` plus the marker attribute; the element is not removed.  The
counter increment and the `logSecurityEvent` call are modeled separately
(`logSecurityEvent` above). -/
def blockAd (e : DomElement) : DomElement :=
  { e with styleDisplay := "none", attrs := setAttr e.attrs "data-umbra-blocked" "ad" }

/-- Method `AdBlocker.hideElement` of `src/js/features/adblock.js`. -/
def hideElement (e : DomElement) : DomElement :=
  { e with styleDisplay := "none", styleVisibility := "hidden", styleOpacity := "0",
           styleMaxHeight := "0", styleOverflow := "hidden",
           attrs := setAttr e.attrs "data-umbra-blocked" "true" }

/-- The restore loop in the disable branch of
`SecurityManager.toggleAdBlocker`: for every element matching
`[data-umbra-blocked="ad"]`, reset `display` and drop the marker. -/
def restoreBlockedAds (doc : List DomElement) : List DomElement :=
  doc.map (fun e =>
    if getAttr e.attrs "data-umbra-blocked" == some "ad" then
      { e with styleDisplay := "", attrs := removeAttr e.attrs "data-umbra-blocked" }
    else e)

/-- Method `SecurityManager.toggleAdBlocker`: flip the flag; when the new value is
`false`, run the restore loop above; when it is `true`, the source re-scans
the page (`scanCurrentPage`, a DOM traversal that only adds further blocks —
the claims concern the disable direction, which is modeled in full). -/
def toggleAdBlocker (adBlockEnabled : Bool) (doc : List DomElement) :
    Bool × List DomElement :=
  if adBlockEnabled then (false, restoreBlockedAds doc) else (true, doc)

/-- Method `AdBlocker.disable` of `src/js/features/adblock.js`: clears the enabled
flag and shows a notification; no element is touched. -/
def adBlockerDisable (doc : List DomElement) : Bool × List DomElement :=
  (false, doc)

/-! ## The core event bus and `navigate` (`src/js/core/umbra.js`) -/

/-- The state read by the four `beforeNavigate` listeners. -/
structure UmbraState where
  settings : CoreSettings
  isPrivacyMode : Bool
  blockTrackers : Bool
  security : SecurityState
  adblock : AdbState

/-- Method `PrivacyManager.isTracker` of `src/js/features/privacy.js`. -/
def knownTrackers : List String :=
  ["doubleclick.net", "googletagmanager.com", "google-analytics.com",
   "facebook.com/tr", "twitter.com/i/adsct", "linkedin.com/px",
   "amazon-adsystem.com", "googlesyndication.com", "scorecardresearch.com",
   "quantserve.com", "outbrain.com", "taboola.com"]

def isTracker (url : String) : Bool :=
  match parseUrl url with
  | none => false
  | some o =>
    let hostname := toLowerStr o.hostname
    knownTrackers.any (fun t => containsStr hostname t || endsWithStr hostname t)

/-- Listener `PrivacyManager.handleBeforeNavigation` (features variant). -/
def privacyBeforeNavigate (st : UmbraState) (url : String) : Bool :=
  if st.isPrivacyMode && st.blockTrackers && isTracker url then false else true

/-- Listener `SecurityManager.handleBeforeNavigation`: a detected threat returns
`false` (after logging/notifying). -/
def securityBeforeNavigate (st : UmbraState) (url : String) : Bool :=
  if !st.security.isEnabled then true
  else
    match checkUrl st.security url with
    | some _ => false
    | none => true

/-- Listener `AdBlocker.handleBeforeNavigation`. -/
def adblockBeforeNavigate (st : UmbraState) (url : String) : Bool :=
  if !st.adblock.isEnabled then true
  else if shouldBlockUrl st.adblock url then false
  else true

/-- Listener `UmbraBrowser.handleBeforeNavigation` (the core's own listener). -/
def coreBeforeNavigate (st : UmbraState) (url : String) : Bool :=
  if st.settings.securityEnabled then
    match checkUrl st.security url with
    | some _ => false
    | none => true
  else true

/-- The return values of the `beforeNavigate` listeners, in registration
order (`initializeManagers` registers the privacy feature, the security
manager and the ad blocker before the core registers its own handler). -/
def beforeNavigateResults (st : UmbraState) (url : String) : List Bool :=
  [privacyBeforeNavigate st url, securityBeforeNavigate st url,
   adblockBeforeNavigate st url, coreBeforeNavigate st url]

/-- Method `UmbraBrowser.emit` of `src/js/core/umbra.js` for `beforeNavigate`: the
body is `listeners.forEach(cb => { try { cb(data) } catch ... })` and the
method has no return statement, so its value is `undefined` (`none`) — every
listener return value is discarded by `forEach`. -/
def emitBeforeNavigate (st : UmbraState) (url : String) : Option Bool :=
  let _results := beforeNavigateResults st url
  none

inductive NavOutcome where
  | noop
  | blockedByGate
  | loaded (url : String)
deriving DecidableEq, Repr

def searchUrlFor (q : String) : String := "https://www.google.com/search?q=" ++ q

def startsWithStr (s pre : String) : Bool := pre.data.isPrefixOf s.data

/-- The URL normalization at the top of `UmbraBrowser.navigate`
(the `encodeURIComponent` of the search branch is not modeled; no claim
uses it). -/
def normalizeUrl (url : String) : String :=
  if startsWithStr url "http://" || startsWithStr url "https://" then url
  else if containsStr url "." && !containsStr url " " then "https://" ++ url
  else searchUrlFor url

/-- Method `UmbraBrowser.navigate` of `src/js/core/umbra.js`: normalize the input,
emit `beforeNavigate`, compare the emitted (undefined) result against
`false`, then load.  `.loaded u` stands for the `loadUrl` call actually
following the navigation. -/
def navigate (st : UmbraState) (url0 : String) : NavOutcome :=
  if url0 == "" then .noop
  else
    let url := normalizeUrl url0
    let canNavigate := emitBeforeNavigate st url
    if canNavigate == some false then .blockedByGate
    else .loaded url

def initialAdbState : AdbState :=
  { isEnabled := true, whitelist := [], filterLists := [defaultFilters],
    customFilters := [] }

def initialUmbraState : UmbraState :=
  { settings := initialCoreSettings, isPrivacyMode := true, blockTrackers := true,
    security := initialSecurityState, adblock := initialAdbState }

/-! ## Derived definitions used by the verification -/

/-- The spec's reading of the spoofing heuristic, written from the claim's
words for comparison with `checkDomainSpoofing`: the substitution variants of
a *legitimate domain* (`o→0`, `i→1`, `l→1`, `e→3`, hyphen-insertion, TLD swap
to `.net`/`.org`). -/
def specVariants (legit : String) : List String :=
  [replaceAllChar 'o' '0' legit, replaceAllChar 'i' '1' legit,
   replaceAllChar 'l' '1' legit, replaceAllChar 'e' '3' legit,
   replaceFirst legit "." "-" ++ ".com",
   replaceFirst legit ".com" ".net",
   replaceFirst legit ".com" ".org"]

/-- Spec-words predicate: the hostname equals a substitution variant of some
legitimate domain and is not identical to that domain. -/
def specVariantSpoof (hostname : String) : Bool :=
  legitimateDomains.any (fun legit =>
    (specVariants legit).contains hostname && hostname != legit)

/-- Function `checkUrl` as a state-passing call: the source method reads
`threatDatabase` and `securityRules` but writes nothing, so the state
component is returned unchanged. -/
def checkUrlRun (st : SecurityState) (url : String) : Option Threat × SecurityState :=
  (checkUrl st url, st)

def whitelistedSyndState : AdbState :=
  { initialAdbState with whitelist := ["googlesyndication.com"] }

def whitelistedPaypalState : AdbState :=
  { initialAdbState with whitelist := ["secure-paypal-verification.com"] }

def elem0 : DomElement := ⟨"", "", "", "", "", [], true⟩

def secEvent0 : SecEvent := ⟨"ad", "https://ads.example/banner", 0, "https://example.com/"⟩

def blockedReq0 : BlockedReq := ⟨"tracking", "https://doubleclick.net/x", 0⟩

/-- Any hostname missing one of the characters the heuristic substitutes. -/
abbrev lacksOneOfOILE (h : String) : Prop :=
  'o' ∉ h.data ∨ 'i' ∉ h.data ∨ 'l' ∉ h.data ∨ 'e' ∉ h.data

/-- Lemma form of the trim: `trimTo` is exactly keeping the last `cap` entries. -/
def takeRightN (cap : Nat) (l : List α) : List α := l.drop (l.length - cap)

/-- One logging step: push, then trim to the cap. -/
def logStep (cap : Nat) (l : List α) (e : α) : List α := trimTo cap (l ++ [e])

/-- A sequence of `logSecurityEvent` calls with `window.umbraBrowser` present
and private mode off (the persisting configuration). -/
def recordSecEvents (events : List SecEvent) (store : LocalStore) : LocalStore :=
  events.foldl (fun st e => logSecurityEvent st e true false) store

/-- A sequence of `logBlockedRequest` calls with private mode off. -/
def recordBlockedReqs (reqs : List BlockedReq) (store : LocalStore) : LocalStore :=
  reqs.foldl (fun st r => logBlockedRequest st r false) store

/-! ## Helper lemmas -/

theorem findSome_exists_of_eq_some {α β : Type} {f : α → Option β} {l : List α} {b : β}
    (h : l.findSome? f = some b) : ∃ a ∈ l, f a = some b := by
  induction l with
  | nil => simp [List.findSome?] at h
  | cons x xs ih =>
    rw [List.findSome?_cons] at h
    cases hfx : f x with
    | some c =>
      rw [hfx] at h
      exact ⟨x, List.mem_cons_self .., by rw [hfx]; exact h⟩
    | none =>
      rw [hfx] at h
      obtain ⟨a, ha, hfa⟩ := ih h
      exact ⟨a, List.mem_cons_of_mem _ ha, hfa⟩

theorem findSome_isSome_of_mem {α β : Type} {f : α → Option β} {l : List α} {a : α}
    (ha : a ∈ l) (hf : (f a).isSome) : (l.findSome? f).isSome := by
  induction l with
  | nil => cases ha
  | cons x xs ih =>
    rw [List.findSome?_cons]
    cases hfx : f x with
    | some c => rfl
    | none =>
      rcases List.mem_cons.mp ha with rfl | hm
      · rw [hfx] at hf; cases hf
      · exact ih hm

theorem contains_of_mem {l : List String} {a : String} (h : a ∈ l) :
    l.contains a = true :=
  List.elem_iff.mpr h

theorem replaceAllCharList_of_not_mem {c : Char} (r : Char) {l : List Char}
    (h : c ∉ l) : replaceAllCharList c r l = l := by
  induction l with
  | nil => rfl
  | cons x xs ih =>
    have hx : (x == c) = false := by
      refine beq_eq_false_iff_ne.mpr ?_
      rintro rfl
      exact h (List.mem_cons_self x xs)
    simp only [replaceAllCharList, hx, Bool.false_eq_true, if_false]
    rw [ih (fun hm => h (List.mem_cons_of_mem x hm))]

theorem replaceAllChar_eq_self {c : Char} (r : Char) {s : String}
    (h : c ∉ s.data) : replaceAllChar c r s = s := by
  show (⟨replaceAllCharList c r s.data⟩ : String) = s
  rw [replaceAllCharList_of_not_mem r h]

theorem not_mem_replaceAllCharList {c r : Char} (hne : r ≠ c) (l : List Char) :
    c ∉ replaceAllCharList c r l := by
  induction l with
  | nil => simp [replaceAllCharList]
  | cons x xs ih =>
    simp only [replaceAllCharList]
    intro hmem
    rcases List.mem_cons.mp hmem with heq | hm
    · by_cases hxc : (x == c) = true
      · rw [if_pos hxc] at heq; exact hne heq.symm
      · rw [if_neg (by simp [hxc])] at heq
        exact hxc (beq_iff_eq.mpr heq.symm)
    · exact ih hm

theorem not_mem_replaceAllChar {c r : Char} (hne : r ≠ c) (s : String) :
    c ∉ (replaceAllChar c r s).data :=
  not_mem_replaceAllCharList hne s.data

theorem mem_spoofingPatterns_self {h : String} (legit : String)
    (hfix : replaceAllChar 'o' '0' h = h ∨ replaceAllChar 'i' '1' h = h ∨
      replaceAllChar 'l' '1' h = h ∨ replaceAllChar 'e' '3' h = h) :
    h ∈ spoofingPatterns h legit := by
  unfold spoofingPatterns
  simp only [List.mem_cons]
  rcases hfix with h1 | h1 | h1 | h1
  · exact Or.inl h1.symm
  · exact Or.inr (Or.inl h1.symm)
  · exact Or.inr (Or.inr (Or.inl h1.symm))
  · exact Or.inr (Or.inr (Or.inr (Or.inl h1.symm)))

theorem mem_spoofingPatterns_variant {h : String} (legit : String)
    (hv : h = replaceFirst legit "." "-" ++ ".com" ∨
      h = replaceFirst legit ".com" ".net" ∨ h = replaceFirst legit ".com" ".org") :
    h ∈ spoofingPatterns h legit := by
  unfold spoofingPatterns
  simp only [List.mem_cons]
  rcases hv with h1 | h1 | h1
  · exact Or.inr (Or.inr (Or.inr (Or.inr (Or.inl h1))))
  · exact Or.inr (Or.inr (Or.inr (Or.inr (Or.inr (Or.inl h1)))))
  · exact Or.inr (Or.inr (Or.inr (Or.inr (Or.inr (Or.inr (Or.inl h1))))))

theorem checkDomainSpoofing_spoof_of_cond {h ℓ : String} (hmem : ℓ ∈ legitimateDomains)
    (hc : h ∈ spoofingPatterns h ℓ) (hne : h ≠ ℓ) :
    ∃ t, checkDomainSpoofing h = some t ∧ t.ttype = "spoofing" := by
  have hsome : (checkDomainSpoofing h).isSome := by
    unfold checkDomainSpoofing
    apply findSome_isSome_of_mem hmem
    have hc' : (spoofingPatterns h ℓ).contains h = true := contains_of_mem hc
    have hne' : (h != ℓ) = true := bne_iff_ne.mpr hne
    simp [hc', hne', hc]
  obtain ⟨t, ht⟩ := Option.isSome_iff_exists.mp hsome
  refine ⟨t, ht, ?_⟩
  unfold checkDomainSpoofing at ht
  obtain ⟨x, _, hfx⟩ := findSome_exists_of_eq_some ht
  by_cases hcond : ((spoofingPatterns h x).contains h && h != x) = true
  · rw [if_pos hcond] at hfx
    cases hfx
    rfl
  · rw [if_neg hcond] at hfx
    cases hfx

theorem checkDomainSpoofing_spoof_of_lacks {h : String} (hl : lacksOneOfOILE h) :
    ∃ t, checkDomainSpoofing h = some t ∧ t.ttype = "spoofing" := by
  have hfix : replaceAllChar 'o' '0' h = h ∨ replaceAllChar 'i' '1' h = h ∨
      replaceAllChar 'l' '1' h = h ∨ replaceAllChar 'e' '3' h = h := by
    rcases hl with h1 | h1 | h1 | h1
    · exact Or.inl (replaceAllChar_eq_self _ h1)
    · exact Or.inr (Or.inl (replaceAllChar_eq_self _ h1))
    · exact Or.inr (Or.inr (Or.inl (replaceAllChar_eq_self _ h1)))
    · exact Or.inr (Or.inr (Or.inr (replaceAllChar_eq_self _ h1)))
  by_cases hg : h = "google.com"
  · refine checkDomainSpoofing_spoof_of_cond (ℓ := "facebook.com") (by decide)
      (mem_spoofingPatterns_self _ hfix) ?_
    rw [hg]; decide
  · exact checkDomainSpoofing_spoof_of_cond (ℓ := "google.com") (by decide)
      (mem_spoofingPatterns_self _ hfix) hg

theorem storeGet_storeSet (st : LocalStore) (k : String) (v : StoreVal) :
    storeGet (storeSet st k v) k = some v := by
  induction st with
  | nil => simp [storeSet, storeGet, List.find?]
  | cons p rest ih =>
    obtain ⟨k', v'⟩ := p
    by_cases hb : (k' == k) = true
    · simp [storeSet, hb, storeGet, List.find?]
    · simp only [storeSet, hb, Bool.false_eq_true, if_false]
      simpa [storeGet, List.find?, hb] using ih

theorem getAttr_setAttr (attrs : List (String × String)) (k v : String) :
    getAttr (setAttr attrs k v) k = some v := by
  induction attrs with
  | nil => simp [setAttr, getAttr, List.find?]
  | cons p rest ih =>
    obtain ⟨k', v'⟩ := p
    by_cases hb : (k' == k) = true
    · simp [setAttr, hb, getAttr, List.find?]
    · simp only [setAttr, hb, Bool.false_eq_true, if_false]
      simpa [getAttr, List.find?, hb] using ih

theorem removeAttr_setAttr_of_none (attrs : List (String × String)) (k v : String)
    (h : getAttr attrs k = none) : removeAttr (setAttr attrs k v) k = attrs := by
  induction attrs with
  | nil => simp [setAttr, removeAttr]
  | cons p rest ih =>
    obtain ⟨k', v'⟩ := p
    have hb : (k' == k) = false := by
      by_cases hb : (k' == k) = true
      · exfalso; simp [getAttr, List.find?, hb] at h
      · simpa using hb
    have hrest : getAttr rest k = none := by
      simpa [getAttr, List.find?, hb] using h
    simp only [setAttr, hb, Bool.false_eq_true, if_false, removeAttr]
    rw [ih hrest]

theorem trimTo_eq_takeRightN (cap : Nat) (l : List α) :
    trimTo cap l = takeRightN cap l := by
  unfold trimTo takeRightN
  split
  · rfl
  · next hc => rw [Nat.sub_eq_zero_of_le (Nat.le_of_not_lt hc), List.drop_zero]

theorem takeRightN_append_step (cap : Nat) (l : List α) (e : α) :
    takeRightN cap (takeRightN cap l ++ [e]) = takeRightN cap (l ++ [e]) := by
  unfold takeRightN
  rw [← List.drop_append_of_le_length (Nat.sub_le l.length cap), List.drop_drop]
  congr 1
  simp only [List.length_append, List.length_drop, List.length_cons, List.length_nil]
  omega

theorem foldl_logStep (cap : Nat) (events : List α) (l : List α) :
    events.foldl (logStep cap) (takeRightN cap l) = takeRightN cap (l ++ events) := by
  induction events generalizing l with
  | nil => simp
  | cons e es ih =>
    rw [List.foldl_cons]
    have h1 : logStep cap (takeRightN cap l) e = takeRightN cap (l ++ [e]) := by
      rw [logStep, trimTo_eq_takeRightN, takeRightN_append_step]
    rw [h1, ih (l ++ [e]), List.append_assoc]
    rfl

theorem foldl_logStep_nil (cap : Nat) (events : List α) :
    events.foldl (logStep cap) [] = takeRightN cap events := by
  have h0 : takeRightN cap ([] : List α) = [] := by simp [takeRightN]
  have := foldl_logStep cap events []
  rw [h0] at this
  simpa using this

theorem getSecLog_log (store : LocalStore) (e : SecEvent) :
    getSecLog (logSecurityEvent store e true false)
      = trimTo 1000 (getSecLog store ++ [e]) := by
  unfold logSecurityEvent
  simp [getSecLog, storeGet_storeSet]

theorem getSecLog_record (events : List SecEvent) (store : LocalStore) :
    getSecLog (recordSecEvents events store)
      = events.foldl (logStep 1000) (getSecLog store) := by
  induction events generalizing store with
  | nil => rfl
  | cons e es ih =>
    rw [recordSecEvents, List.foldl_cons, List.foldl_cons]
    have : List.foldl (fun st e => logSecurityEvent st e true false)
        (logSecurityEvent store e true false) es
        = recordSecEvents es (logSecurityEvent store e true false) := rfl
    rw [this, ih, getSecLog_log]
    rfl

theorem getBlockedReqs_log (store : LocalStore) (r : BlockedReq) :
    getBlockedReqs (logBlockedRequest store r false)
      = trimTo 100 (getBlockedReqs store ++ [r]) := by
  unfold logBlockedRequest
  simp [getBlockedReqs, storeGet_storeSet]

theorem getBlockedReqs_record (reqs : List BlockedReq) (store : LocalStore) :
    getBlockedReqs (recordBlockedReqs reqs store)
      = reqs.foldl (logStep 100) (getBlockedReqs store) := by
  induction reqs generalizing store with
  | nil => rfl
  | cons r rs ih =>
    rw [recordBlockedReqs, List.foldl_cons, List.foldl_cons]
    have : List.foldl (fun st r => logBlockedRequest st r false)
        (logBlockedRequest store r false) rs
        = recordBlockedReqs rs (logBlockedRequest store r false) := rfl
    rw [this, ih, getBlockedReqs_log]
    rfl

/-! ## Claim theorems -/

/-- Claim C1 (amended): while private mode is enabled, `logSecurityEvent`,
`logBlockedRequest` and the scripts-variant `saveSettings` leave the
persistent store unchanged (only in-memory counters move); the settings save
of `src/js/core/umbra.js` is not gated by private mode — the counterexample
exhibits it writing the store. -/
theorem claim_C1_private_mode_persistence :
    (∀ (store : LocalStore) (e : SecEvent) (hasUB : Bool),
        logSecurityEvent store e hasUB true = store)
    ∧ (∀ (store : LocalStore) (r : BlockedReq), logBlockedRequest store r true = store)
    ∧ (∀ (store : LocalStore) (s : ScriptsSettings),
        scriptsSaveSettings store s true = store) := by
  refine ⟨fun store e hasUB => ?_, fun store r => ?_, fun store s => ?_⟩
  · simp [logSecurityEvent]
  · simp [logBlockedRequest]
  · simp [scriptsSaveSettings]

/-- Claim C1 counterexample: `handlePrivacyModeToggle` of `src/js/core/umbra.js`
calls the ungated `saveSettings`, so a settings save made while private mode
is enabled does reach the persistent store: starting from a store without the
`umbra-settings` key, the key is present after the call. -/
theorem claim_C1_settings_write_counterexample :
    storeGet (handlePrivacyModeToggle ⟨true, initialCoreSettings⟩ emptyStore true).2
        "umbra-settings"
      = some (.coreSettings { initialCoreSettings with privacyMode := true })
    ∧ storeGet emptyStore "umbra-settings" = none :=
  ⟨rfl, rfl⟩

/-- Claim C2 (amended): inside the ad blocker, a whitelisted hostname is never
blocked — `shouldBlockUrl` returns `false` for every filter-list and
custom-filter configuration; but `SecurityManager.checkUrl` consults no
whitelist, so such a URL can still be classified as a threat through the
threat database (counterexample below). -/
theorem claim_C2_whitelist_precedence :
    (∀ (st : AdbState) (url : String) (o : UrlObj),
        parseUrl url = some o →
        st.whitelist.contains (toLowerStr o.hostname) = true →
        shouldBlockUrl st url = false)
    ∧ checkUrl initialSecurityState "https://secure-paypal-verification.com/login"
        = some ⟨"phishing", "PayPalフィッシングサイト"⟩ := by
  constructor
  · intro st url o hp hw
    have hw' : toLowerStr o.hostname ∈ st.whitelist := List.elem_iff.mp hw
    simp [shouldBlockUrl, hp, hw']
  · decide

theorem claim_C2_whitelist_precedence_witness :
    parseUrl "https://googlesyndication.com/ads/123"
        = some ⟨"googlesyndication.com", "https://googlesyndication.com/ads/123"⟩
    ∧ whitelistedSyndState.whitelist.contains (toLowerStr "googlesyndication.com") = true
    ∧ shouldBlockUrl whitelistedSyndState "https://googlesyndication.com/ads/123" = false :=
  ⟨by decide, by decide,
   claim_C2_whitelist_precedence.1 whitelistedSyndState
     "https://googlesyndication.com/ads/123"
     ⟨"googlesyndication.com", "https://googlesyndication.com/ads/123"⟩
     (by decide) (by decide)⟩

/-- Claim C2 counterexample: with `secure-paypal-verification.com` whitelisted
in the ad blocker, the ad blocker does not block it, but classification is
not Clean: `checkUrl` still returns the phishing verdict from the threat
database, and the security manager's navigation gate answers `false`. -/
theorem claim_C2_whitelist_counterexample :
    whitelistedPaypalState.whitelist.contains "secure-paypal-verification.com" = true
    ∧ shouldBlockUrl whitelistedPaypalState
        "https://secure-paypal-verification.com/login" = false
    ∧ checkUrl initialSecurityState "https://secure-paypal-verification.com/login"
        = some ⟨"phishing", "PayPalフィッシングサイト"⟩
    ∧ securityBeforeNavigate { initialUmbraState with adblock := whitelistedPaypalState }
        "https://secure-paypal-verification.com/login" = false := by
  refine ⟨by decide, by decide, by decide, by decide⟩

/-- Claim C3 (code bug): `checkUrl` flags `https://zzz.xyz/` as `spoofing` and
the security listener returns `false`, but `emit` iterates its listeners with
`forEach` — which discards every return value — and itself returns
`undefined`, so the `if (canNavigate === false)` guard in `navigate` can
never fire and the flagged URL is loaded anyway. -/
theorem claim_C3_navigation_gate_evaluation :
    (∃ t, checkUrl initialSecurityState "https://zzz.xyz/" = some t
      ∧ t.ttype = "spoofing")
    ∧ securityBeforeNavigate initialUmbraState "https://zzz.xyz/" = false
    ∧ (beforeNavigateResults initialUmbraState "https://zzz.xyz/").contains false = true
    ∧ emitBeforeNavigate initialUmbraState "https://zzz.xyz/" = none
    ∧ navigate initialUmbraState "https://zzz.xyz/" = .loaded "https://zzz.xyz/" := by
  refine ⟨⟨⟨"spoofing", "google.comのドメインスプーフィング"⟩, by decide, rfl⟩,
    by decide, by decide, rfl, by decide⟩

/-- Claim C4 (amended): every non-identical substitution variant of a
legitimate domain is flagged as Spoofing, but the stage also fires whenever
the hostname lacks one of `o`, `i`, `l`, `e` (it then equals its own
substitution image — the first four `spoofingPatterns` are substitutions of
the *hostname*, not the legitimate domain); `checkDomainSpoofing` does flag
`g00gle.com` against `google.com`, but the full classification of
`https://g00gle.com` returns the malware file-extension rule (the URL ends in
`.com`, matching `/\.(exe|scr|pif|bat|cmd|com|vbs|jar)$/i`) before the
spoofing stage runs. -/
theorem claim_C4_spoofing_heuristic :
    (∀ (h ℓ : String), ℓ ∈ legitimateDomains → h ∈ specVariants ℓ → h ≠ ℓ →
        ∃ t, checkDomainSpoofing h = some t ∧ t.ttype = "spoofing")
    ∧ (∀ h : String, lacksOneOfOILE h →
        ∃ t, checkDomainSpoofing h = some t ∧ t.ttype = "spoofing")
    ∧ checkDomainSpoofing "g00gle.com"
        = some ⟨"spoofing", "google.comのドメインスプーフィング"⟩
    ∧ checkUrl initialSecurityState "https://g00gle.com"
        = some ⟨"malware", "実行可能ファイルのダウンロード"⟩ := by
  refine ⟨?_, fun h hl => checkDomainSpoofing_spoof_of_lacks hl, by decide, by decide⟩
  intro h ℓ hmem hv hne
  unfold specVariants at hv
  simp only [List.mem_cons, List.not_mem_nil, or_false] at hv
  rcases hv with h1 | h1 | h1 | h1 | h1 | h1 | h1
  · refine checkDomainSpoofing_spoof_of_lacks (Or.inl ?_)
    rw [h1]; exact not_mem_replaceAllChar (by decide) ℓ
  · refine checkDomainSpoofing_spoof_of_lacks (Or.inr (Or.inl ?_))
    rw [h1]; exact not_mem_replaceAllChar (by decide) ℓ
  · refine checkDomainSpoofing_spoof_of_lacks (Or.inr (Or.inr (Or.inl ?_)))
    rw [h1]; exact not_mem_replaceAllChar (by decide) ℓ
  · refine checkDomainSpoofing_spoof_of_lacks (Or.inr (Or.inr (Or.inr ?_)))
    rw [h1]; exact not_mem_replaceAllChar (by decide) ℓ
  · exact checkDomainSpoofing_spoof_of_cond hmem
      (mem_spoofingPatterns_variant ℓ (Or.inl h1)) hne
  · exact checkDomainSpoofing_spoof_of_cond hmem
      (mem_spoofingPatterns_variant ℓ (Or.inr (Or.inl h1))) hne
  · exact checkDomainSpoofing_spoof_of_cond hmem
      (mem_spoofingPatterns_variant ℓ (Or.inr (Or.inr h1))) hne

theorem claim_C4_spoofing_heuristic_witness :
    ("google.com" ∈ legitimateDomains ∧ "google.net" ∈ specVariants "google.com"
      ∧ "google.net" ≠ "google.com")
    ∧ (∃ t, checkDomainSpoofing "google.net" = some t ∧ t.ttype = "spoofing")
    ∧ lacksOneOfOILE "github.com"
    ∧ (∃ t, checkDomainSpoofing "github.com" = some t ∧ t.ttype = "spoofing") :=
  ⟨⟨by decide, by decide, by decide⟩,
   claim_C4_spoofing_heuristic.1 "google.net" "google.com"
     (by decide) (by decide) (by decide),
   Or.inr (Or.inr (Or.inl (by decide))),
   claim_C4_spoofing_heuristic.2.1 "github.com" (Or.inr (Or.inr (Or.inl (by decide))))⟩

/-- Claim C4 counterexample: the claim's scenario fails — classification of
`https://g00gle.com` is the malware file-extension verdict, not Spoofing —
and the claim's "exactly when" fails — `zzz.com` is flagged as Spoofing
though it is not a substitution variant of any legitimate domain. -/
theorem claim_C4_spoofing_counterexample :
    checkUrl initialSecurityState "https://g00gle.com"
        = some ⟨"malware", "実行可能ファイルのダウンロード"⟩
    ∧ checkDomainSpoofing "zzz.com"
        = some ⟨"spoofing", "google.comのドメインスプーフィング"⟩
    ∧ specVariantSpoof "zzz.com" = false := by
  refine ⟨by decide, by decide, by decide⟩

/-- Claim C5: an input that fails URL parsing is classified as the
`invalid`-category verdict — never Clean (`none`). -/
theorem claim_C5_invalid_url_verdict (st : SecurityState) (url : String)
    (h : parseUrl url = none) :
    checkUrl st url = some ⟨"invalid", "無効なURL形式"⟩ ∧ checkUrl st url ≠ none := by
  have h1 : checkUrl st url = some ⟨"invalid", "無効なURL形式"⟩ := by
    unfold checkUrl; rw [h]
  exact ⟨h1, by rw [h1]; exact Option.some_ne_none _⟩

theorem claim_C5_invalid_url_verdict_witness :
    parseUrl "not a url" = none
    ∧ (checkUrl initialSecurityState "not a url" = some ⟨"invalid", "無効なURL形式"⟩
        ∧ checkUrl initialSecurityState "not a url" ≠ none) :=
  ⟨by decide, claim_C5_invalid_url_verdict initialSecurityState "not a url" (by decide)⟩

/-- Claim C6: after `cap + k` record calls (k > 0) starting from an empty
store, the security log holds exactly 1000 entries and the blocked-requests
log exactly 100, and the survivors are precisely the most recent `cap`
insertions in insertion order. -/
theorem claim_C6_bounded_logs (events : List SecEvent) (reqs : List BlockedReq)
    (k j : Nat) (hk : 0 < k) (hev : events.length = 1000 + k)
    (hj : 0 < j) (hrq : reqs.length = 100 + j) :
    getSecLog (recordSecEvents events emptyStore) = events.drop k
    ∧ (getSecLog (recordSecEvents events emptyStore)).length = 1000
    ∧ getBlockedReqs (recordBlockedReqs reqs emptyStore) = reqs.drop j
    ∧ (getBlockedReqs (recordBlockedReqs reqs emptyStore)).length = 100 := by
  have h1 : getSecLog (recordSecEvents events emptyStore) = events.drop k := by
    rw [getSecLog_record]
    have h0 : getSecLog emptyStore = [] := rfl
    rw [h0, foldl_logStep_nil]
    unfold takeRightN
    have hK : events.length - 1000 = k := by omega
    rw [hK]
  have h2 : getBlockedReqs (recordBlockedReqs reqs emptyStore) = reqs.drop j := by
    rw [getBlockedReqs_record]
    have h0 : getBlockedReqs emptyStore = [] := rfl
    rw [h0, foldl_logStep_nil]
    unfold takeRightN
    have hJ : reqs.length - 100 = j := by omega
    rw [hJ]
  refine ⟨h1, ?_, h2, ?_⟩
  · rw [h1, List.length_drop]; omega
  · rw [h2, List.length_drop]; omega

theorem claim_C6_bounded_logs_witness :
    (List.replicate 1001 secEvent0).length = 1000 + 1
    ∧ (List.replicate 101 blockedReq0).length = 100 + 1
    ∧ (getSecLog (recordSecEvents (List.replicate 1001 secEvent0) emptyStore)
          = (List.replicate 1001 secEvent0).drop 1
      ∧ (getSecLog (recordSecEvents (List.replicate 1001 secEvent0) emptyStore)).length
          = 1000
      ∧ getBlockedReqs (recordBlockedReqs (List.replicate 101 blockedReq0) emptyStore)
          = (List.replicate 101 blockedReq0).drop 1
      ∧ (getBlockedReqs
          (recordBlockedReqs (List.replicate 101 blockedReq0) emptyStore)).length
          = 100) :=
  ⟨by rw [List.length_replicate], by rw [List.length_replicate],
   claim_C6_bounded_logs (List.replicate 1001 secEvent0)
     (List.replicate 101 blockedReq0) 1 1 (by decide)
     (by rw [List.length_replicate]) (by decide) (by rw [List.length_replicate])⟩

/-- Claim C7: an invalid custom-filter pattern fails compilation inside
`new RegExp(pattern, 'i')`, which throws before any mutation: the call
errors out, the custom-filter list is unchanged and nothing is persisted. -/
theorem claim_C7_invalid_pattern_rejected (st : AdbState) (store : LocalStore)
    (pattern ftype description : String) (h : regExpCompile pattern = none) :
    addCustomFilter st store pattern ftype description = .error .invalidPattern
    ∧ tryAddCustomFilter st store pattern ftype description = (st, store) := by
  have h1 : addCustomFilter st store pattern ftype description
      = .error .invalidPattern := by
    unfold addCustomFilter; rw [h]
  exact ⟨h1, by unfold tryAddCustomFilter; rw [h1]⟩

theorem claim_C7_invalid_pattern_rejected_witness :
    regExpCompile "(" = none
    ∧ (addCustomFilter initialAdbState emptyStore "(" "url" "test"
          = .error .invalidPattern
        ∧ tryAddCustomFilter initialAdbState emptyStore "(" "url" "test"
          = (initialAdbState, emptyStore)) :=
  ⟨rfl, claim_C7_invalid_pattern_rejected initialAdbState emptyStore "(" "url" "test" rfl⟩

/-- Claim C8 (amended): `blockAd` hides non-destructively (`display:none`, a
`data-umbra-blocked="ad"` marker, element still attached) and the disable
direction of `toggleAdBlocker` restores display and removes the marker;
`AdBlocker.hideElement` likewise hides non-destructively with a marker, but
`AdBlocker.disable` performs no restoration (counterexample below). -/
theorem claim_C8_ad_hide_restore :
    (∀ e : DomElement, (blockAd e).attached = e.attached
      ∧ (blockAd e).styleDisplay = "none"
      ∧ getAttr (blockAd e).attrs "data-umbra-blocked" = some "ad")
    ∧ (∀ e : DomElement, getAttr e.attrs "data-umbra-blocked" = none →
        toggleAdBlocker true [blockAd e] = (false, [{ e with styleDisplay := "" }]))
    ∧ (∀ e : DomElement, (hideElement e).attached = e.attached
      ∧ getAttr (hideElement e).attrs "data-umbra-blocked" = some "true")
    ∧ (∀ doc : List DomElement, adBlockerDisable doc = (false, doc)) := by
  refine ⟨fun e => ⟨rfl, rfl, getAttr_setAttr e.attrs "data-umbra-blocked" "ad"⟩,
    fun e he => ?_,
    fun e => ⟨rfl, getAttr_setAttr e.attrs "data-umbra-blocked" "true"⟩,
    fun doc => rfl⟩
  have hmarker : getAttr (setAttr e.attrs "data-umbra-blocked" "ad")
      "data-umbra-blocked" = some "ad" :=
    getAttr_setAttr e.attrs "data-umbra-blocked" "ad"
  have hrm : removeAttr (setAttr e.attrs "data-umbra-blocked" "ad")
      "data-umbra-blocked" = e.attrs :=
    removeAttr_setAttr_of_none e.attrs "data-umbra-blocked" "ad" he
  simp [toggleAdBlocker, restoreBlockedAds, blockAd, hmarker, hrm]

theorem claim_C8_ad_hide_restore_witness :
    getAttr elem0.attrs "data-umbra-blocked" = none
    ∧ toggleAdBlocker true [blockAd elem0] = (false, [{ elem0 with styleDisplay := "" }]) :=
  ⟨rfl, claim_C8_ad_hide_restore.2.1 elem0 rfl⟩

/-- Claim C8 counterexample: an element hidden by `AdBlocker.hideElement`
(marker value `"true"`) is not restored by an explicit
`AdBlocker.disable()` — the document is untouched, the element keeps its
hidden styling and its marker (and even the scripts-variant restore loop
would not match, since it selects marker value `"ad"`). -/
theorem claim_C8_adblocker_disable_counterexample :
    (hideElement elem0).styleVisibility = "hidden"
    ∧ (hideElement elem0).styleDisplay = "none"
    ∧ getAttr (hideElement elem0).attrs "data-umbra-blocked" = some "true"
    ∧ adBlockerDisable [hideElement elem0] = (false, [hideElement elem0])
    ∧ restoreBlockedAds [hideElement elem0] = [hideElement elem0] := by
  refine ⟨rfl, rfl, rfl, rfl, by decide⟩

/-- Claim C9: the function `checkUrl` mutates nothing — the state-passing call returns the
state unchanged (matching the write-free source method), so a second call on
the resulting state yields the identical verdict. -/
theorem claim_C9_classification_idempotent (st : SecurityState) (url : String) :
    (checkUrlRun st url).2 = st
    ∧ (checkUrlRun (checkUrlRun st url).2 url).1 = (checkUrlRun st url).1 :=
  ⟨rfl, rfl⟩

/-- Claim C10: the stage `checkDomainSpoofing` flags every hostname lacking one of `o`,
`i`, `l`, `e` (such a hostname equals its own substitution image), including
the legitimate `github.com`; consequently, whenever a URL parses, its
hostname lacks such a character, and the threat-database and rule stages both
miss, `checkUrl` returns a Spoofing verdict. -/
theorem claim_C10_self_substitution_spoofing :
    (∀ h : String, lacksOneOfOILE h →
        ∃ t, checkDomainSpoofing h = some t ∧ t.ttype = "spoofing")
    ∧ (∃ t, checkDomainSpoofing "github.com" = some t ∧ t.ttype = "spoofing")
    ∧ (∀ (st : SecurityState) (url : String) (o : UrlObj),
        parseUrl url = some o →
        lacksOneOfOILE (toLowerStr o.hostname) →
        dbLookup st.threatDatabase (toLowerStr o.hostname) = none →
        rulesFind st.securityRules (toLowerStr url).data = none →
        ∃ t, checkUrl st url = some t ∧ t.ttype = "spoofing") := by
  refine ⟨fun h hl => checkDomainSpoofing_spoof_of_lacks hl,
    ⟨⟨"spoofing", "google.comのドメインスプーフィング"⟩, by decide, rfl⟩,
    fun st url o hp hl hdb hr => ?_⟩
  obtain ⟨t, ht, htt⟩ := checkDomainSpoofing_spoof_of_lacks hl
  refine ⟨t, ?_, htt⟩
  unfold checkUrl
  rw [hp]
  simp only [hdb, hr, ht]

theorem claim_C10_self_substitution_spoofing_witness :
    parseUrl "https://zzz.xyz/" = some ⟨"zzz.xyz", "https://zzz.xyz/"⟩
    ∧ lacksOneOfOILE (toLowerStr (UrlObj.mk "zzz.xyz" "https://zzz.xyz/").hostname)
    ∧ dbLookup initialSecurityState.threatDatabase
        (toLowerStr (UrlObj.mk "zzz.xyz" "https://zzz.xyz/").hostname) = none
    ∧ rulesFind initialSecurityState.securityRules
        (toLowerStr "https://zzz.xyz/").data = none
    ∧ (∃ t, checkUrl initialSecurityState "https://zzz.xyz/" = some t
        ∧ t.ttype = "spoofing") :=
  ⟨by decide, Or.inl (by decide), by decide, by decide,
   claim_C10_self_substitution_spoofing.2.2 initialSecurityState "https://zzz.xyz/"
     ⟨"zzz.xyz", "https://zzz.xyz/"⟩ (by decide) (Or.inl (by decide))
     (by decide) (by decide)⟩

end Umbra
